import Mathlib

/-!
Shallow embedding of `src/expression_parser.py` (class `SafeExpressionParser`
and the module-level `safe_eval`), the safe arithmetic expression evaluator.

Modelling conventions:
* Python `float` values are modelled by `PyFloat`: finite doubles are carried
  as exact rationals (no claim under verification depends on binary rounding
  of finite values), and the IEEE special values `inf`, `-inf`, `nan` are
  explicit constructors.  Overflow of a finite value to an infinity is
  modelled at the `2 ^ 1024` magnitude boundary.
* Rational arithmetic is spelled out through `mkRat` (`qAdd`, `qMul`, ...)
  rather than through the `Rat` instances, so that concrete runs of the
  evaluator reduce inside the kernel; the values are the usual exact
  rational sums, products and quotients.
* Python exceptions are modelled by the error type `PyError`, one constructor
  per distinct `raise` site / message in the source.
* Whitespace handled by `str.strip()` / `str.replace(' ', '')` is modelled as
  the space character only; the spec's expression alphabet admits no other
  whitespace character.
-/

set_option maxRecDepth 8000

namespace SafeCalc

/-- Model of a Python `float` value: an exact rational for finite doubles,
plus the IEEE special values. -/
inductive PyFloat where
  | finite (q : Rat)
  | inf
  | neginf
  | nan
deriving DecidableEq

/-- One constructor per distinct `raise` site in `expression_parser.py`. -/
inductive PyError where
  | emptyExpression
  | tooLong
  | invalidCharacter
  | unbalancedParentheses
  | consecutiveOperators
  | invalidOperatorPlacement
  | noValidTokens
  | invalidOperatorAtStart
  | operatorAtEnd
  | invalidToken (t : String)
  | invalidExpression
  | divisionByZero
  | unknownOperator (t : String)
  | resultInfinity
  | resultNaN
deriving DecidableEq

/-- Decidable equality of `Except` results, so that concrete runs of the
pipeline can be checked by `decide`. -/
instance {ε α : Type} [DecidableEq ε] [DecidableEq α] : DecidableEq (Except ε α) := fun a b =>
  match a, b with
  | Except.error x, Except.error y =>
    if h : x = y then Decidable.isTrue (congrArg Except.error h)
    else Decidable.isFalse (fun hh => h (Except.noConfusion hh id))
  | Except.ok x, Except.ok y =>
    if h : x = y then Decidable.isTrue (congrArg Except.ok h)
    else Decidable.isFalse (fun hh => h (Except.noConfusion hh id))
  | Except.error _, Except.ok _ => Decidable.isFalse (fun hh => Except.noConfusion hh)
  | Except.ok _, Except.error _ => Decidable.isFalse (fun hh => Except.noConfusion hh)

/-- Exact rational addition, written via `mkRat` so it evaluates. -/
def qAdd (a b : Rat) : Rat := mkRat (a.num * b.den + b.num * a.den) (a.den * b.den)

/-- Exact rational negation. -/
def qNeg (a : Rat) : Rat := mkRat (-a.num) a.den

/-- Exact rational subtraction. -/
def qSub (a b : Rat) : Rat := qAdd a (qNeg b)

/-- Exact rational multiplication. -/
def qMul (a b : Rat) : Rat := mkRat (a.num * b.num) (a.den * b.den)

/-- Exact rational inverse (of a nonzero rational). -/
def qInv (a : Rat) : Rat :=
  if a.num < 0 then mkRat (-(a.den : Int)) ((-a.num).toNat) else mkRat (a.den : Int) a.num.toNat

/-- Exact rational division. -/
def qDiv (a b : Rat) : Rat := qMul a (qInv b)

/-- Decidable `a ≤ b` on rationals, by cross multiplication. -/
def qLe (a b : Rat) : Bool := decide (a.num * (b.den : Int) ≤ b.num * (a.den : Int))

/-- Decidable `a < b` on rationals, by cross multiplication. -/
def qLt (a b : Rat) : Bool := decide (a.num * (b.den : Int) < b.num * (a.den : Int))

/-- `10 ^ e` as a rational, for a signed decimal exponent. -/
def pow10 : Int → Rat
  | Int.ofNat n => mkRat (Int.ofNat (Nat.pow 10 n)) 1
  | Int.negSucc n => mkRat 1 (Nat.pow 10 (n + 1))

/-- The magnitude at which a finite double overflows to an infinity. -/
def overflowBound : Rat := mkRat (Int.ofNat (Nat.pow 2 1024)) 1

/-- Value of a list of decimal digit characters. -/
def digitsToNat (ds : List Char) : Nat :=
  ds.foldl (fun n c => 10 * n + (c.toNat - 48)) 0

/-- Case-insensitive comparison of a character list with a keyword. -/
def lowerEq (cs : List Char) (kw : String) : Bool :=
  cs.map Char.toLower == kw.toList

/-- Strip spaces from both ends of a character list (models `str.strip()`). -/
def stripSpacesEnds (cs : List Char) : List Char :=
  ((cs.dropWhile (fun c => c == ' ')).reverse.dropWhile (fun c => c == ' ')).reverse

/-- Build the `PyFloat` denoted by sign, integer digits, fraction digits and
signed decimal exponent, overflowing to an infinity past `overflowBound`. -/
def mkPyFloat (neg : Bool) (intDs fracDs : List Char) (e : Int) : PyFloat :=
  let mant : Nat := digitsToNat (intDs ++ fracDs)
  let q : Rat := qMul (mkRat (Int.ofNat mant) 1) (pow10 (e - (fracDs.length : Int)))
  if qLe overflowBound q then (if neg then PyFloat.neginf else PyFloat.inf)
  else if neg then PyFloat.finite (qNeg q) else PyFloat.finite q

/-- Body of `float(str)` after the optional sign: the keywords
`inf`/`infinity`/`nan` (case-insensitive) or a decimal literal with optional
fraction and optional exponent.  Returns `none` where CPython raises
`ValueError`. -/
def pyFloatBody (neg : Bool) (cs : List Char) : Option PyFloat :=
  if lowerEq cs "inf" || lowerEq cs "infinity" then
    some (if neg then PyFloat.neginf else PyFloat.inf)
  else if lowerEq cs "nan" then some PyFloat.nan
  else
    let intDs := cs.takeWhile Char.isDigit
    let r1 := cs.drop intDs.length
    let fracDs : List Char :=
      match r1 with
      | '.' :: rest => rest.takeWhile Char.isDigit
      | _ => []
    let r2 : List Char :=
      match r1 with
      | '.' :: rest => rest.drop ((rest.takeWhile Char.isDigit).length)
      | _ => r1
    if intDs.length + fracDs.length = 0 then none
    else
      match r2 with
      | [] => some (mkPyFloat neg intDs fracDs 0)
      | e :: r3 =>
        if e = 'e' ∨ e = 'E' then
          let esign : Int := match r3 with
            | '-' :: _ => -1
            | _ => 1
          let r4 : List Char := match r3 with
            | '+' :: r => r
            | '-' :: r => r
            | _ => r3
          let expDs := r4.takeWhile Char.isDigit
          if expDs.length = 0 then none
          else if r4.drop expDs.length ≠ [] then none
          else some (mkPyFloat neg intDs fracDs (esign * (digitsToNat expDs : Int)))
        else none

/-- Model of Python `float(s)`: `none` where CPython raises `ValueError`.
(CPython additionally allows underscores between digits; no string reaching
this function contains one.) -/
def pyFloatOfString (s : String) : Option PyFloat :=
  match stripSpacesEnds s.toList with
  | '+' :: rest => pyFloatBody false rest
  | '-' :: rest => pyFloatBody true rest
  | cs => pyFloatBody false cs

/-- `SafeExpressionParser._is_number`: `float(token)` succeeds. -/
def is_number (s : String) : Bool := (pyFloatOfString s).isSome

/-- Clamp an exact rational result to a `PyFloat`, overflowing to an
infinity past the double range. -/
def clampF (q : Rat) : PyFloat :=
  if qLe overflowBound q then PyFloat.inf
  else if qLe q (qNeg overflowBound) then PyFloat.neginf
  else PyFloat.finite q

/-- IEEE addition on modelled floats. -/
def pfAdd : PyFloat → PyFloat → PyFloat
  | PyFloat.nan, _ => PyFloat.nan
  | _, PyFloat.nan => PyFloat.nan
  | PyFloat.finite a, PyFloat.finite b => clampF (qAdd a b)
  | PyFloat.inf, PyFloat.neginf => PyFloat.nan
  | PyFloat.neginf, PyFloat.inf => PyFloat.nan
  | PyFloat.inf, _ => PyFloat.inf
  | _, PyFloat.inf => PyFloat.inf
  | PyFloat.neginf, _ => PyFloat.neginf
  | _, PyFloat.neginf => PyFloat.neginf

/-- IEEE negation on modelled floats. -/
def pfNeg : PyFloat → PyFloat
  | PyFloat.finite q => PyFloat.finite (qNeg q)
  | PyFloat.inf => PyFloat.neginf
  | PyFloat.neginf => PyFloat.inf
  | PyFloat.nan => PyFloat.nan

/-- IEEE subtraction on modelled floats. -/
def pfSub (a b : PyFloat) : PyFloat := pfAdd a (pfNeg b)

/-- IEEE multiplication on modelled floats. -/
def pfMul : PyFloat → PyFloat → PyFloat
  | PyFloat.nan, _ => PyFloat.nan
  | _, PyFloat.nan => PyFloat.nan
  | PyFloat.finite a, PyFloat.finite b => clampF (qMul a b)
  | PyFloat.inf, PyFloat.inf => PyFloat.inf
  | PyFloat.inf, PyFloat.neginf => PyFloat.neginf
  | PyFloat.neginf, PyFloat.inf => PyFloat.neginf
  | PyFloat.neginf, PyFloat.neginf => PyFloat.inf
  | PyFloat.inf, PyFloat.finite b =>
    if b = 0 then PyFloat.nan else if qLt 0 b then PyFloat.inf else PyFloat.neginf
  | PyFloat.finite a, PyFloat.inf =>
    if a = 0 then PyFloat.nan else if qLt 0 a then PyFloat.inf else PyFloat.neginf
  | PyFloat.neginf, PyFloat.finite b =>
    if b = 0 then PyFloat.nan else if qLt 0 b then PyFloat.neginf else PyFloat.inf
  | PyFloat.finite a, PyFloat.neginf =>
    if a = 0 then PyFloat.nan else if qLt 0 a then PyFloat.neginf else PyFloat.inf

/-- IEEE division on modelled floats, for a nonzero right operand (the
evaluator tests `b == 0` before dividing; the `b = 0` row is unreachable
there and modelled as `nan`). -/
def pfDiv : PyFloat → PyFloat → PyFloat
  | PyFloat.nan, _ => PyFloat.nan
  | _, PyFloat.nan => PyFloat.nan
  | PyFloat.finite a, PyFloat.finite b =>
    if b = 0 then PyFloat.nan else clampF (qDiv a b)
  | PyFloat.finite _, PyFloat.inf => PyFloat.finite 0
  | PyFloat.finite _, PyFloat.neginf => PyFloat.finite 0
  | PyFloat.inf, PyFloat.inf => PyFloat.nan
  | PyFloat.inf, PyFloat.neginf => PyFloat.nan
  | PyFloat.neginf, PyFloat.inf => PyFloat.nan
  | PyFloat.neginf, PyFloat.neginf => PyFloat.nan
  | PyFloat.inf, PyFloat.finite b =>
    if qLe 0 b then PyFloat.inf else PyFloat.neginf
  | PyFloat.neginf, PyFloat.finite b =>
    if qLe 0 b then PyFloat.neginf else PyFloat.inf

/-- `math.isinf` on a modelled float. -/
def pfIsInf : PyFloat → Bool
  | PyFloat.inf => true
  | PyFloat.neginf => true
  | _ => false

/-- `math.isnan` on a modelled float. -/
def pfIsNaN : PyFloat → Bool
  | PyFloat.nan => true
  | _ => false

/-! ### Validator (`_validate_expression`, `_balanced_parentheses`) -/

/-- The allowed-character set of `_validate_expression`. -/
def allowedChars : List Char := "0123456789+-*/.()eE ".toList

/-- An operator character of `[+\-*/]`. -/
def isOperatorChar (c : Char) : Bool :=
  (c == '+') || (c == '-') || (c == '*') || (c == '/')

/-- Running-count loop of `_balanced_parentheses`: the open count never goes
negative and ends at zero. -/
def balAux : Nat → List Char → Bool
  | count, [] => count == 0
  | count, c :: rest =>
    if c = '(' then balAux (count + 1) rest
    else if c = ')' then
      match count with
      | 0 => false
      | n + 1 => balAux n rest
    else balAux count rest

/-- `SafeExpressionParser._balanced_parentheses`. -/
def balanced_parentheses (s : String) : Bool := balAux 0 s.toList

/-- The regex `[+\-*/]{2,}` scan: two adjacent operator characters occur. -/
def hasConsecutiveOps : List Char → Bool
  | a :: b :: rest => (isOperatorChar a && isOperatorChar b) || hasConsecutiveOps (b :: rest)
  | _ => false

/-- First character is one of `+ * /` (the expression reaching this check is
nonempty; Python would raise `IndexError` on an empty one, unreachable). -/
def headBadOp (cs : List Char) : Bool :=
  match cs with
  | c :: _ => (c == '+') || (c == '*') || (c == '/')
  | [] => false

/-- Last character is one of `+ - * /`. -/
def lastBadOp (cs : List Char) : Bool :=
  match cs.getLast? with
  | some c => isOperatorChar c
  | none => false

/-- `SafeExpressionParser._validate_expression`, check for check in source
order, short-circuiting on the first failure. -/
def validate_expression (s : String) : Except PyError Unit :=
  let cs := s.toList
  if 1000 < cs.length then Except.error PyError.tooLong
  else if !(cs.all (fun c => allowedChars.contains c)) then Except.error PyError.invalidCharacter
  else if !(balAux 0 cs) then Except.error PyError.unbalancedParentheses
  else if hasConsecutiveOps cs then Except.error PyError.consecutiveOperators
  else if headBadOp cs || lastBadOp cs then Except.error PyError.invalidOperatorPlacement
  else Except.ok ()

/-! ### Tokenizer (`_tokenize`, `_validate_token_sequence`)

`re.findall` with the token regex
`(\d+\.?\d*(?:[eE][+-]?\d+)?|[+\-*/]|[()])` scans left to right; at each
position it emits the greedy number match if one starts there, else a
single operator/parenthesis character, else it skips the character. -/

/-- Number of characters consumed by the exponent part `(?:[eE][+-]?\d+)?`
of the number regex at the head of `cs` (0 when it does not match). -/
def expPartLen (cs : List Char) : Nat :=
  match cs with
  | e :: rest =>
    if (e == 'e') || (e == 'E') then
      match rest with
      | s :: rest2 =>
        if (s == '+') || (s == '-') then
          let ds := (rest2.takeWhile Char.isDigit).length
          if ds = 0 then 0 else 2 + ds
        else
          let ds := (rest.takeWhile Char.isDigit).length
          if ds = 0 then 0 else 1 + ds
      | [] => 0
    else 0
  | [] => 0

/-- Number of characters consumed by the greedy number regex
`\d+\.?\d*(?:[eE][+-]?\d+)?` at the head of `cs` (0 when it does not
match, i.e. when `cs` does not start with a digit). -/
def numberMatchLen (cs : List Char) : Nat :=
  let d1 := (cs.takeWhile Char.isDigit).length
  if d1 = 0 then 0
  else
    let r1 := cs.drop d1
    let dotLen : Nat := match r1 with
      | '.' :: _ => 1
      | _ => 0
    let r2 := r1.drop dotLen
    let d2 := (r2.takeWhile Char.isDigit).length
    d1 + dotLen + d2 + expPartLen (r2.drop d2)

/-- The left-to-right scan of `re.findall` with the token regex: emit the
greedy number match when one starts at the position, else a single
operator or parenthesis character, else skip the character.  The fuel
argument makes the recursion structural; every step consumes at least one
character, so fuel equal to the length of the list suffices. -/
def scanTokensF : Nat → List Char → List String
  | 0, _ => []
  | _, [] => []
  | fuel + 1, c :: rest =>
    let n := numberMatchLen (c :: rest)
    if n = 0 then
      if (isOperatorChar c) || (c == '(') || (c == ')') then
        String.mk [c] :: scanTokensF fuel rest
      else scanTokensF fuel rest
    else
      String.mk ((c :: rest).take n) :: scanTokensF fuel ((c :: rest).drop n)

/-- `re.findall` of the compiled token regex over the expression text. -/
def scanTokens (cs : List Char) : List String := scanTokensF cs.length cs

/-- The operator strings (the keys of the sets / dicts in the source). -/
def isOperatorTok (t : String) : Bool :=
  (t == "+") || (t == "-") || (t == "*") || (t == "/")

/-- Index-tracking loop of `_validate_token_sequence` (`n` is the total
token count, `i` the index of the head of the remaining list). -/
def validateTokSeqAux (n : Nat) : Nat → List String → Except PyError Unit
  | _, [] => Except.ok ()
  | i, t :: rest =>
    if isOperatorTok t then
      if i = 0 ∧ t ≠ "-" then Except.error PyError.invalidOperatorAtStart
      else if i = n - 1 then Except.error PyError.operatorAtEnd
      else validateTokSeqAux n (i + 1) rest
    else if (t == "(") || (t == ")") then validateTokSeqAux n (i + 1) rest
    else if !(is_number t) then Except.error (PyError.invalidToken t)
    else validateTokSeqAux n (i + 1) rest

/-- `SafeExpressionParser._validate_token_sequence`. -/
def validate_token_sequence (tokens : List String) : Except PyError Unit :=
  validateTokSeqAux tokens.length 0 tokens

/-- `SafeExpressionParser._tokenize`: strip spaces, `findall`, fail when no
token was produced, then validate the token sequence. -/
def tokenize (s : String) : Except PyError (List String) :=
  let tokens := scanTokens (s.toList.filter (fun c => !(c == ' ')))
  if tokens = [] then Except.error PyError.noValidTokens
  else
    match validate_token_sequence tokens with
    | Except.error e => Except.error e
    | Except.ok _ => Except.ok tokens

/-! ### Shunting-yard converter (`_infix_to_postfix`)

The operator stack is a head-is-top list.  `syRun tokens stack` is the
output emitted from this point on; at end of input the whole remaining
stack is popped to the output, so `syRun [] stack = stack`. -/

/-- The `precedence` dict: `+ -` bind at 1, `* /` at 2 (0 on other keys
stands for "not in the dict"; it is only consulted for stack entries,
which are operators or `(`, and `(` is excluded by the loop guards). -/
def prec (t : String) : Nat :=
  if (t == "+") || (t == "-") then 1
  else if (t == "*") || (t == "/") then 2
  else 0

/-- `token in precedence`. -/
def isPrecOp (t : String) : Bool :=
  (t == "+") || (t == "-") || (t == "*") || (t == "/")

/-- The `)` loop: pop operators to the output until a `(`, then discard
that `(` (silently a no-op when the stack runs out).  First component:
the popped run, in pop order; second: the remaining stack. -/
def popUntilParen (st : List String) : List String × List String :=
  (st.takeWhile (fun o => !(o == "(")), (st.dropWhile (fun o => !(o == "("))).drop 1)

/-- The operator-arrival loop guard: top is not `(` and its precedence is
`>=` the incoming token's. -/
def geGuard (t o : String) : Bool := !(o == "(") && decide (prec t ≤ prec o)

/-- The operator-arrival loop: pop while the guard holds. -/
def popGE (t : String) (st : List String) : List String × List String :=
  (st.takeWhile (geGuard t), st.dropWhile (geGuard t))

/-- The token loop of `_infix_to_postfix` (output-suffix form). -/
def syRun : List String → List String → List String
  | [], st => st
  | t :: ts, st =>
    if is_number t then t :: syRun ts st
    else if t = "(" then syRun ts ("(" :: st)
    else if t = ")" then
      let p := popUntilParen st
      p.1 ++ syRun ts p.2
    else if isPrecOp t then
      let p := popGE t st
      p.1 ++ syRun ts (t :: p.2)
    else syRun ts st

/-- `SafeExpressionParser._infix_to_postfix`. -/
def infix_to_rpn (tokens : List String) : List String := syRun tokens []

/-! ### Postfix evaluator (`_evaluate_postfix`) -/

/-- Application of an operator token to the two popped values `a`, `b`
(`b` popped first): the `+ - * /` dispatch, with the `b == 0` test ahead
of the division. -/
def applyOp (t : String) (a b : PyFloat) : Except PyError PyFloat :=
  if t = "+" then Except.ok (pfAdd a b)
  else if t = "-" then Except.ok (pfSub a b)
  else if t = "*" then Except.ok (pfMul a b)
  else if t = "/" then
    if b = PyFloat.finite 0 then Except.error PyError.divisionByZero
    else Except.ok (pfDiv a b)
  else Except.error (PyError.unknownOperator t)

/-- The token loop of `_evaluate_postfix`, returning the final stack:
numbers are parsed and pushed, other tokens pop two values (failing
`Invalid expression` when fewer are available) and push the operator
result. -/
def evalRpnLoop : List String → List PyFloat → Except PyError (List PyFloat)
  | [], stack => Except.ok stack
  | t :: ts, stack =>
    match pyFloatOfString t with
    | some v => evalRpnLoop ts (v :: stack)
    | none =>
      match stack with
      | b :: a :: rest =>
        match applyOp t a b with
        | Except.error e => Except.error e
        | Except.ok r => evalRpnLoop ts (r :: rest)
      | _ => Except.error PyError.invalidExpression

/-- `SafeExpressionParser._evaluate_postfix`: run the loop, require exactly
one value on the final stack, then reject an infinite or NaN result. -/
def evaluate_rpn (rpn : List String) : Except PyError PyFloat :=
  match evalRpnLoop rpn [] with
  | Except.error e => Except.error e
  | Except.ok stack =>
    match stack with
    | [result] =>
      if pfIsInf result then Except.error PyError.resultInfinity
      else if pfIsNaN result then Except.error PyError.resultNaN
      else Except.ok result
    | _ => Except.error PyError.invalidExpression

/-! ### Entry points (`parse`, the global instance, `safe_eval`) -/

/-- `SafeExpressionParser.parse`: reject empty/whitespace-only input, strip,
validate, tokenize, convert, evaluate. -/
def parse (s : String) : Except PyError PyFloat :=
  if stripSpacesEnds s.toList = [] then Except.error PyError.emptyExpression
  else
    let e := String.mk (stripSpacesEnds s.toList)
    match validate_expression e with
    | Except.error err => Except.error err
    | Except.ok _ =>
      match tokenize e with
      | Except.error err => Except.error err
      | Except.ok tokens => evaluate_rpn (infix_to_rpn tokens)

/-- The instance state set by `SafeExpressionParser.__init__`: the three
pattern strings (the compiled regexes are functions of these; `scanTokens`
models the compiled `token_regex`).  No method ever assigns to the
instance after `__init__`. -/
structure SafeExpressionParser where
  number_pattern : String
  operator_pattern : String
  parenthesis_pattern : String
deriving DecidableEq

/-- `SafeExpressionParser()`: the constructor. -/
def mkSafeExpressionParser : SafeExpressionParser :=
  { number_pattern := "\\d+\\.?\\d*(?:[eE][+-]?\\d+)?"
    operator_pattern := "[+\\-*/]"
    parenthesis_pattern := "[()]" }

/-- The module-level global `_parser = SafeExpressionParser()`. -/
def globalParser : SafeExpressionParser := mkSafeExpressionParser

/-- A call `p.parse(expression)` as a state transformer on the instance:
the result together with the instance state after the call (unchanged,
since no method writes to `self` after `__init__`). -/
def parserParse (p : SafeExpressionParser) (s : String) :
    Except PyError PyFloat × SafeExpressionParser :=
  (parse s, p)

/-- The module-level `safe_eval`: delegate to the shared global instance. -/
def safe_eval (s : String) : Except PyError PyFloat :=
  (parserParse globalParser s).1

/-- Balanced parentheses at the token level: the running open count never
goes negative and ends at zero (the token-list analogue of the
character-level `_balanced_parentheses`). -/
def tokBalanced : Nat → List String → Bool
  | d, [] => d == 0
  | d, t :: ts =>
    if t = "(" then tokBalanced (d + 1) ts
    else if t = ")" then
      match d with
      | 0 => false
      | n + 1 => tokBalanced n ts
    else tokBalanced d ts

end SafeCalc




namespace SafeCalc

/-! ### Shared facts about concrete tokens -/

theorem isnum_lparen : is_number "(" = false := by decide

theorem isnum_rparen : is_number ")" = false := by decide

theorem isnum_plus : is_number "+" = false := by decide

theorem isnum_minus : is_number "-" = false := by decide

theorem isnum_star : is_number "*" = false := by decide

theorem isnum_slash : is_number "/" = false := by decide

theorem rparen_ne_lparen : (")" : String) ≠ "(" := by decide

/-! ### Structure of the shunting-yard output (claim C9) -/

/-- When `(` occurs in the stack, `dropWhile` stops at the first one. -/
theorem dropWhile_paren (st : List String) (h : "(" ∈ st) :
    ∃ B, st.dropWhile (fun o => !(o == "(")) = "(" :: B := by
  induction st with
  | nil => cases h
  | cons a st ih =>
    by_cases ha : a = "("
    · subst ha
      exact ⟨st, by simp [List.dropWhile]⟩
    · have hmem : "(" ∈ st := by
        rcases List.mem_cons.mp h with h1 | h1
        · exact absurd h1.symm ha
        · exact h1
      obtain ⟨B, hB⟩ := ih hmem
      exact ⟨B, by simpa [List.dropWhile_cons, ha] using hB⟩

/-- Invariant of the token loop of `_infix_to_postfix`: starting from a
stack holding `d` copies of `(` and otherwise only non-number, non-`)`
entries, a token sequence whose parentheses are balanced relative to `d`
produces an output with no parenthesis tokens whose number tokens are
exactly those of the input, in order. -/
theorem syRun_spec (ts : List String) : ∀ (st : List String) (d : Nat),
    tokBalanced d ts = true →
    st.count "(" = d →
    (∀ x ∈ st, x ≠ ")" ∧ is_number x = false) →
    (∀ x ∈ syRun ts st, x ≠ "(" ∧ x ≠ ")") ∧
      (syRun ts st).filter is_number = ts.filter is_number := by
  induction ts with
  | nil =>
    intro st d hbal hcount hst
    have hd : d = 0 := by simpa [tokBalanced] using hbal
    subst hd
    have hnp : "(" ∉ st := List.count_eq_zero.mp hcount
    constructor
    · intro x hx
      have hx' : x ∈ st := by simpa [syRun] using hx
      exact ⟨fun he => hnp (he ▸ hx'), (hst x hx').1⟩
    · have hfe : st.filter is_number = [] :=
        List.filter_eq_nil_iff.mpr (fun a ha => by simp [(hst a ha).2])
      simpa [syRun] using hfe
  | cons t ts ih =>
    intro st d hbal hcount hst
    by_cases hnum : is_number t = true
    · have ht1 : t ≠ "(" := fun he => by rw [he, isnum_lparen] at hnum; cases hnum
      have ht2 : t ≠ ")" := fun he => by rw [he, isnum_rparen] at hnum; cases hnum
      have hbal' : tokBalanced d ts = true := by
        simpa [tokBalanced, ht1, ht2] using hbal
      obtain ⟨hmem, hfil⟩ := ih st d hbal' hcount hst
      constructor
      · intro x hx
        rcases List.mem_cons.mp (by simpa [syRun, hnum] using hx) with h1 | h1
        · exact h1 ▸ ⟨ht1, ht2⟩
        · exact hmem x h1
      · simp [syRun, hnum, hfil]
    · have hnumf : is_number t = false := by
        revert hnum
        cases is_number t <;> simp
      by_cases hl : t = "("
      · subst hl
        have hbal' : tokBalanced (d + 1) ts = true := by
          simpa [tokBalanced] using hbal
        have hcount' : ("(" :: st).count "(" = d + 1 := by
          simp [List.count_cons, hcount]
        have hst' : ∀ x ∈ "(" :: st, x ≠ ")" ∧ is_number x = false := by
          intro x hx
          rcases List.mem_cons.mp hx with h1 | h1
          · subst h1
            exact ⟨by decide, isnum_lparen⟩
          · exact hst x h1
        obtain ⟨hmem, hfil⟩ := ih ("(" :: st) (d + 1) hbal' hcount' hst'
        constructor
        · intro x hx
          exact hmem x (by simpa [syRun, hnumf] using hx)
        · simpa [syRun, hnumf, isnum_lparen] using hfil
      · by_cases hr : t = ")"
        · subst hr
          cases d with
          | zero => simp [tokBalanced] at hbal
          | succ d =>
            have hbal2 : tokBalanced d ts = true := by
              simpa [tokBalanced, rparen_ne_lparen] using hbal
            have hparen : "(" ∈ st :=
              List.count_pos_iff.mp (by rw [hcount]; exact Nat.succ_pos d)
            obtain ⟨B, hB⟩ := dropWhile_paren st hparen
            have hpop : popUntilParen st = (st.takeWhile (fun o => !(o == "(")), B) := by
              simp [popUntilParen, hB]
            have hsplit : st = st.takeWhile (fun o => !(o == "(")) ++ "(" :: B := by
              conv_lhs => rw [← List.takeWhile_append_dropWhile (p := fun o => !(o == "(")) (l := st)]
              rw [hB]
            have hrun : syRun (")" :: ts) st =
                st.takeWhile (fun o => !(o == "(")) ++ syRun ts B := by
              simp [syRun, isnum_rparen, rparen_ne_lparen, hpop]
            have hAcount : (st.takeWhile (fun o => !(o == "("))).count "(" = 0 := by
              apply List.count_eq_zero.mpr
              intro hmem
              have hg := List.mem_takeWhile_imp hmem
              simp at hg
            have hBcount : B.count "(" = d := by
              have h2 := hcount
              rw [hsplit, List.count_append, List.count_cons] at h2
              simp [hAcount] at h2
              omega
            have hstB : ∀ x ∈ B, x ≠ ")" ∧ is_number x = false := by
              intro x hx
              refine hst x ?_
              rw [hsplit]
              exact List.mem_append_right _ (List.mem_cons_of_mem _ hx)
            obtain ⟨hmem, hfil⟩ := ih B d hbal2 hBcount hstB
            constructor
            · intro x hx
              rw [hrun] at hx
              rcases List.mem_append.mp hx with h1 | h1
              · have hpU := List.mem_takeWhile_imp h1
                have hxst : x ∈ st := by
                  rw [hsplit]
                  exact List.mem_append_left _ h1
                refine ⟨?_, (hst x hxst).1⟩
                simpa using hpU
              · exact hmem x h1
            · rw [hrun, List.filter_append]
              have hfA : (st.takeWhile (fun o => !(o == "("))).filter is_number = [] := by
                apply List.filter_eq_nil_iff.mpr
                intro a ha
                have hast : a ∈ st := by
                  rw [hsplit]
                  exact List.mem_append_left _ ha
                simp [(hst a hast).2]
              simp [hfA, hfil, List.filter_cons, isnum_rparen]
        · by_cases hop : isPrecOp t = true
          · have hbal' : tokBalanced d ts = true := by
              simpa [tokBalanced, hl, hr] using hbal
            have hsplit : st = st.takeWhile (geGuard t) ++ st.dropWhile (geGuard t) :=
              (List.takeWhile_append_dropWhile (p := geGuard t) (l := st)).symm
            have hAcount : (st.takeWhile (geGuard t)).count "(" = 0 := by
              apply List.count_eq_zero.mpr
              intro hmem
              have hg := List.mem_takeWhile_imp hmem
              simp [geGuard] at hg
            have hBcount : (st.dropWhile (geGuard t)).count "(" = d := by
              have h2 := hcount
              rw [hsplit, List.count_append] at h2
              omega
            have hstB : ∀ x ∈ st.dropWhile (geGuard t), x ≠ ")" ∧ is_number x = false := by
              intro x hx
              refine hst x ?_
              rw [hsplit]
              exact List.mem_append_right _ hx
            have hstTB : ∀ x ∈ t :: st.dropWhile (geGuard t), x ≠ ")" ∧ is_number x = false := by
              intro x hx
              rcases List.mem_cons.mp hx with h1 | h1
              · subst h1
                exact ⟨hr, hnumf⟩
              · exact hstB x h1
            have hcountTB : (t :: st.dropWhile (geGuard t)).count "(" = d := by
              simp [List.count_cons, hBcount, hl]
            have hrun : syRun (t :: ts) st =
                st.takeWhile (geGuard t) ++ syRun ts (t :: st.dropWhile (geGuard t)) := by
              simp [syRun, hnumf, hl, hr, hop, popGE]
            obtain ⟨hmem, hfil⟩ := ih (t :: st.dropWhile (geGuard t)) d hbal' hcountTB hstTB
            constructor
            · intro x hx
              rw [hrun] at hx
              rcases List.mem_append.mp hx with h1 | h1
              · have hpU := List.mem_takeWhile_imp h1
                have hxst : x ∈ st := by
                  rw [hsplit]
                  exact List.mem_append_left _ h1
                refine ⟨?_, (hst x hxst).1⟩
                simp [geGuard] at hpU
                exact hpU.1
              · exact hmem x h1
            · rw [hrun, List.filter_append]
              have hfA : (st.takeWhile (geGuard t)).filter is_number = [] := by
                apply List.filter_eq_nil_iff.mpr
                intro a ha
                have hast : a ∈ st := by
                  rw [hsplit]
                  exact List.mem_append_left _ ha
                simp [(hst a hast).2]
              simp [hfA, hfil, List.filter_cons, hnumf]
          · have hbal' : tokBalanced d ts = true := by
              simpa [tokBalanced, hl, hr] using hbal
            have hrun : syRun (t :: ts) st = syRun ts st := by
              simp [syRun, hnumf, hl, hr, hop]
            obtain ⟨hmem, hfil⟩ := ih st d hbal' hcount hst
            constructor
            · intro x hx
              exact hmem x (by rwa [hrun] at hx)
            · rw [hrun, hfil]
              simp [List.filter_cons, hnumf]

end SafeCalc

namespace SafeCalc

/-! ### Claim theorems -/

/-- C1: the spec designates "-5+3" as syntactically valid with value -2.0
(leading minus denoting a negative operand).  The code instead fails: the
tokens are - 5 + 3, the converter emits the postfix sequence 5 - 3 +, and
the evaluator reaches the minus with a single operand on the stack and
raises ValueError("Invalid expression") (MalformedExpression).  This
theorem evaluates the code at the failing input. -/
theorem claim1_leading_minus_fails :
    parse "-5+3" = Except.error PyError.invalidExpression ∧
      infix_to_rpn ["-", "5", "+", "3"] = ["5", "-", "3", "+"] := by
  constructor
  · decide
  · decide

/-- C2 counterexample: on the validated input ".5" tokenization succeeds
with the single token "5" — the character '.' of the space-stripped
expression is part of no produced token, yet no failure is raised and the
whole pipeline returns 5.0 — refuting the claim that tokenization fails
with NoValidTokens / InvalidToken whenever some character is dropped. -/
theorem claim2_counterexample :
    tokenize ".5" = Except.ok ["5"] ∧
      parse ".5" = Except.ok (PyFloat.finite 5) := by
  constructor
  · decide
  · decide

/-- C2 (amended): tokenization fails with NoValidTokens exactly when the
scan over the space-stripped expression produces zero tokens; a character
at which no pattern matches is silently skipped rather than causing a
failure (witnessed by ".5", whose '.' belongs to no token). -/
theorem claim2_amended_tokenize_skips :
    (∀ s : String,
        scanTokens (s.toList.filter (fun c => !(c == ' '))) = [] →
        tokenize s = Except.error PyError.noValidTokens) ∧
      tokenize ".5" = Except.ok ["5"] := by
  constructor
  · intro s h
    simp [tokenize, scanTokens] at h ⊢
    simp [h]
  · decide

/-- C2 witness: the all-dots input "." produces zero tokens and tokenization
fails with NoValidTokens, by the amended theorem. -/
theorem claim2_witness :
    scanTokens (".".toList.filter (fun c => !(c == ' '))) = [] ∧
      tokenize "." = Except.error PyError.noValidTokens :=
  ⟨by decide, claim2_amended_tokenize_skips.1 "." (by decide)⟩

/-- C3 counterexample: the input "1.2.3" is not rejected at the token level:
tokenization succeeds, silently splitting the malformed lexeme into the two
valid number tokens "1.2" and "3" — refuting the claim that the malformed
text is carried intact into a token and rejected there as InvalidToken. -/
theorem claim3_counterexample :
    tokenize "1.2.3" = Except.ok ["1.2", "3"] := by decide

/-- C3 (amended): "1.2.3" is rejected, but not at the token level and not as
InvalidToken: the tokenizer splits the lexeme into the valid number tokens
"1.2" and "3" (which pass sequence validation), and the input is rejected
by the postfix evaluator with MalformedExpression because the final stack
holds two values. -/
theorem claim3_amended_split_then_malformed :
    validate_token_sequence ["1.2", "3"] = Except.ok () ∧
      parse "1.2.3" = Except.error PyError.invalidExpression := by
  constructor
  · decide
  · decide

/-- C4 counterexample: the token "1e999" parses as an infinite float, yet
token-sequence validation does not reject it as InvalidToken — refuting
the claim that a token whose parse is infinite is rejected by token
validation. -/
theorem claim4_counterexample :
    pyFloatOfString "1e999" = some PyFloat.inf ∧
      validate_token_sequence ["1e999"] ≠ Except.error (PyError.invalidToken "1e999") := by
  constructor
  · decide
  · decide

/-- C4 (amended): token validation accepts the lexeme "1e999" whose float
parse is infinite (is_number only checks that float() does not raise, which
it does not — it returns inf); the infinity is instead caught by the result
post-processing at the end of evaluation, as ResultIsInfinity. -/
theorem claim4_amended_infinite_token_accepted :
    validate_token_sequence ["1e999"] = Except.ok () ∧
      parse "1e999" = Except.error PyError.resultInfinity := by
  constructor
  · decide
  · decide

/-- C5: evaluate respects operator precedence and parenthesis grouping on
the spec's worked examples: "2+3*4" evaluates to 14.0 and "(2+3)*4" to
20.0. -/
theorem claim5_precedence_and_grouping :
    parse "2+3*4" = Except.ok (PyFloat.finite 14) ∧
      parse "(2+3)*4" = Except.ok (PyFloat.finite 20) := by
  constructor
  · decide
  · decide

/-- C6: division whose right operand is exactly zero fails DivisionByZero,
decided by the `b == 0` test ahead of the division (for every left operand
`a`, including those whose IEEE quotient would be an infinity or NaN), and
in particular evaluate("10/0") yields DivisionByZero. -/
theorem claim6_division_by_zero :
    (∀ a : PyFloat, applyOp "/" a (PyFloat.finite 0) = Except.error PyError.divisionByZero) ∧
      parse "10/0" = Except.error PyError.divisionByZero := by
  constructor
  · intro a
    rfl
  · decide

end SafeCalc

namespace SafeCalc

theorem isPrecOp_cases (t : String) (h : isPrecOp t = true) :
    t = "+" ∨ t = "-" ∨ t = "*" ∨ t = "/" := by
  simpa [isPrecOp, or_assoc] using h

theorem isPrecOp_not_number (t : String) (h : isPrecOp t = true) : is_number t = false := by
  rcases isPrecOp_cases t h with h1 | h1 | h1 | h1 <;> subst h1 <;> decide

theorem isPrecOp_ne_lparen (t : String) (h : isPrecOp t = true) : t ≠ "(" := by
  rcases isPrecOp_cases t h with h1 | h1 | h1 | h1 <;> subst h1 <;> decide

theorem isPrecOp_ne_rparen (t : String) (h : isPrecOp t = true) : t ≠ ")" := by
  rcases isPrecOp_cases t h with h1 | h1 | h1 | h1 <;> subst h1 <;> decide

/-- C7: equal-precedence operators are left-associative.  Because the
converter pops on precedence `>=` (not `>`), for all number literals
a, b, c and same-precedence operators op1, op2 the token sequences of
"a op1 b op2 c" and "(a op1 b) op2 c" convert to the same postfix sequence
and hence evaluate to the same result. -/
theorem claim7_left_assoc (a b c op1 op2 : String)
    (ha : is_number a = true) (hb : is_number b = true) (hc : is_number c = true)
    (h1 : isPrecOp op1 = true) (h2 : isPrecOp op2 = true)
    (hp : prec op1 = prec op2) :
    infix_to_rpn [a, op1, b, op2, c] = infix_to_rpn ["(", a, op1, b, ")", op2, c] ∧
      evaluate_rpn (infix_to_rpn [a, op1, b, op2, c]) =
        evaluate_rpn (infix_to_rpn ["(", a, op1, b, ")", op2, c]) := by
  have hop1f := isPrecOp_not_number op1 h1
  have hop2f := isPrecOp_not_number op2 h2
  have h1l := isPrecOp_ne_lparen op1 h1
  have h1r := isPrecOp_ne_rparen op1 h1
  have h2l := isPrecOp_ne_lparen op2 h2
  have h2r := isPrecOp_ne_rparen op2 h2
  have hg21 : geGuard op2 op1 = true := by
    simp [geGuard, h1l, hp]
  have hg1p : geGuard op1 "(" = false := by
    simp [geGuard]
  have hrw1 : infix_to_rpn [a, op1, b, op2, c] = [a, b, op1, c, op2] := by
    simp [infix_to_rpn, syRun, ha, hb, hc, hop1f, hop2f, h1l, h1r, h2l, h2r,
      popGE, hg21, h1, h2]
  have hrw2 : infix_to_rpn ["(", a, op1, b, ")", op2, c] = [a, b, op1, c, op2] := by
    simp [infix_to_rpn, syRun, ha, hb, hc, hop1f, hop2f, h1l, h1r, h2l, h2r,
      popGE, popUntilParen, hg1p, h1, h2, isnum_lparen, isnum_rparen,
      rparen_ne_lparen]
  rw [hrw1, hrw2]
  exact ⟨rfl, rfl⟩

/-- C7 witness: at a = "5", b = "3", c = "2", op1 = op2 = "-", the two
forms "5-3-2" and "(5-3)-2" convert to the same postfix sequence and
evaluate identically. -/
theorem claim7_witness :
    is_number "5" = true ∧ isPrecOp "-" = true ∧ prec "-" = prec "-" ∧
      evaluate_rpn (infix_to_rpn ["5", "-", "3", "-", "2"]) =
        evaluate_rpn (infix_to_rpn ["(", "5", "-", "3", ")", "-", "2"]) :=
  ⟨by decide, by decide, rfl,
    (claim7_left_assoc "5" "3" "2" "-" "-" (by decide) (by decide) (by decide)
      (by decide) (by decide) rfl).2⟩

/-- C8: the evaluator is deterministic across invocations sharing the
global parser instance: a call returns the instance state unchanged, and a
second call on the state left by the first produces the same result or
error classification. -/
theorem claim8_deterministic (s : String) :
    (parserParse globalParser s).2 = globalParser ∧
      (parserParse (parserParse globalParser s).2 s).1 = (parserParse globalParser s).1 :=
  ⟨rfl, rfl⟩

/-- C9: for every token sequence with balanced parentheses, the postfix
sequence produced by the converter contains no parenthesis token, and its
number tokens are exactly the number tokens of the input, each exactly
once, in their original relative order. -/
theorem claim9_rpn_structure (ts : List String) (h : tokBalanced 0 ts = true) :
    (∀ x ∈ infix_to_rpn ts, x ≠ "(" ∧ x ≠ ")") ∧
      (infix_to_rpn ts).filter is_number = ts.filter is_number := by
  have hspec := syRun_spec ts [] 0 h (by simp) (by intro x hx; cases hx)
  simpa [infix_to_rpn] using hspec

/-- C9 witness: the balanced token sequence of "(2+3)*4" yields a postfix
sequence with no parentheses and with number tokens 2, 3, 4 in order. -/
theorem claim9_witness :
    tokBalanced 0 ["(", "2", "+", "3", ")", "*", "4"] = true ∧
      ((∀ x ∈ infix_to_rpn ["(", "2", "+", "3", ")", "*", "4"], x ≠ "(" ∧ x ≠ ")") ∧
        (infix_to_rpn ["(", "2", "+", "3", ")", "*", "4"]).filter is_number =
          ["(", "2", "+", "3", ")", "*", "4"].filter is_number) :=
  ⟨by decide, claim9_rpn_structure ["(", "2", "+", "3", ")", "*", "4"] (by decide)⟩

/-- C10: the operand-free balanced input "()" passes expression validation
and tokenization, converts to an empty postfix sequence, and evaluation
fails with MalformedExpression at the final stack-has-exactly-one-value
check; the whole pipeline produces that error and never a number. -/
theorem claim10_unit_parens :
    validate_expression "()" = Except.ok () ∧
      tokenize "()" = Except.ok ["(", ")"] ∧
      infix_to_rpn ["(", ")"] = [] ∧
      evaluate_rpn [] = Except.error PyError.invalidExpression ∧
      parse "()" = Except.error PyError.invalidExpression := by
  exact ⟨by decide, by decide, by decide, by decide, by decide⟩

end SafeCalc
